import Mathlib

/-!
Verification model of the Synapse Go Connector PoC.

The development shallowly embeds the repository's core:
* `protocol/protocol.go` — the wire-protocol message types;
* `synapse-server/connector_manager.go` — `NewConnectorManager`,
  `getOrStartInstance`, `Invoke`, `ShutdownAll`;
* `connectors/simple-file-connector/main.go` — `createFile`, `readFile`
  and the operation dispatch of `handleConnection`.

Go's dynamic `interface{}` values are modelled by the JSON-representable
tagged value type `Jval` (these maps originate from and travel through
JSON). Go maps are modelled as association lists whose observable
behaviour is `mapLookup`; `mapInsert` models `m[k] = v`. A Go `nil` map
or slice is `Option.none`, distinct from an empty one. External effects
(file system, process spawn, sockets, JSON codec of the peer) are passed
in explicitly as oracle values describing the outcome of each effect.

Go map values are references: assigning a struct containing a map copies
the reference, so writes through the copy are visible through the
original. Where the source relies on (or trips over) this aliasing —
the config-merge loop in `Invoke` writing into the stored
`DefaultConfig`, and the worker operations writing into the shared
`Properties` map — the embedding threads the mutated map back into every
state component that holds the same map object.
-/

/-- JSON-representable dynamic value, modelling the Go `interface{}`
values carried in `map[string]interface{}` fields (they are produced by
and fed to the JSON codec, so this is their closed shape). -/
inductive Jval where
  | null
  | bool (b : Bool)
  | num (n : Int)
  | str (s : String)
  | arr (xs : List Jval)
  | obj (fs : List (String × Jval))

/-- Go map lookup `m[k]` on the association-list model: the first binding
of the key is the observable one. -/
def mapLookup {α : Type} (m : List (String × α)) (k : String) : Option α :=
  match m with
  | [] => none
  | p :: rest => if p.1 = k then some p.2 else mapLookup rest k

/-- Go map write `m[k] = v`: replaces the binding when the key is present,
otherwise adds one. -/
def mapInsert {α : Type} (m : List (String × α)) (k : String) (v : α) :
    List (String × α) :=
  if m.any (fun p => decide (p.1 = k)) then
    m.map (fun p => if p.1 = k then (k, v) else p)
  else m ++ [(k, v)]

theorem mapLookup_replace_self {α : Type} (m : List (String × α)) (k : String) (v : α)
    (h : m.any (fun p => decide (p.1 = k)) = true) :
    mapLookup (m.map (fun p => if p.1 = k then (k, v) else p)) k = some v := by
  induction m with
  | nil => simp at h
  | cons p rest ih =>
    obtain ⟨a, b⟩ := p
    by_cases hp : a = k
    · subst hp
      simp [mapLookup]
    · simp only [List.any_cons] at h
      rw [decide_eq_false hp, Bool.false_or] at h
      simpa [mapLookup, hp] using ih h

theorem mapLookup_replace_ne {α : Type} (m : List (String × α)) (k k2 : String) (v : α)
    (h : k2 ≠ k) :
    mapLookup (m.map (fun p => if p.1 = k then (k, v) else p)) k2 = mapLookup m k2 := by
  induction m with
  | nil => rfl
  | cons p rest ih =>
    obtain ⟨a, b⟩ := p
    by_cases hp : a = k
    · subst hp
      have hk2 : ¬ a = k2 := fun he => h he.symm
      simpa [mapLookup, hk2] using ih
    · by_cases hpk2 : a = k2
      · simp [mapLookup, hp, hpk2, h]
      · simpa [mapLookup, hp, hpk2] using ih

theorem mapLookup_append_self {α : Type} (m : List (String × α)) (k : String) (v : α)
    (h : m.any (fun p => decide (p.1 = k)) = false) :
    mapLookup (m ++ [(k, v)]) k = some v := by
  induction m with
  | nil => simp [mapLookup]
  | cons p rest ih =>
    obtain ⟨a, b⟩ := p
    simp only [List.any_cons, Bool.or_eq_false_iff, decide_eq_false_iff_not] at h
    simpa [mapLookup, h.1] using ih (by simpa using h.2)

theorem mapLookup_append_ne {α : Type} (m : List (String × α)) (k k2 : String) (v : α)
    (h : k2 ≠ k) :
    mapLookup (m ++ [(k, v)]) k2 = mapLookup m k2 := by
  have h2 : ¬ k = k2 := fun he => h he.symm
  induction m with
  | nil => simp [mapLookup, h2]
  | cons p rest ih =>
    obtain ⟨a, b⟩ := p
    by_cases hpk2 : a = k2
    · simp [mapLookup, hpk2]
    · simpa [mapLookup, hpk2] using ih

theorem mapLookup_mapInsert_self {α : Type} (m : List (String × α)) (k : String) (v : α) :
    mapLookup (mapInsert m k v) k = some v := by
  unfold mapInsert
  by_cases hr : m.any (fun p => decide (p.1 = k)) = true
  · simpa [hr] using mapLookup_replace_self m k v hr
  · simp only [Bool.not_eq_true] at hr
    simpa [hr] using mapLookup_append_self m k v hr

theorem mapLookup_mapInsert_ne {α : Type} (m : List (String × α)) (k k2 : String) (v : α)
    (h : k2 ≠ k) : mapLookup (mapInsert m k v) k2 = mapLookup m k2 := by
  unfold mapInsert
  by_cases hr : m.any (fun p => decide (p.1 = k)) = true
  · simpa [hr] using mapLookup_replace_ne m k k2 v h
  · simp only [Bool.not_eq_true] at hr
    simpa [hr] using mapLookup_append_ne m k k2 v h

/-- `protocol.MessageContext` from `protocol/protocol.go`. `Payload` is a
Go byte slice (`none` = nil slice), `Properties` a possibly-nil
`map[string]interface{}`, `Headers` a possibly-nil `map[string]string`. -/
structure MessageContext where
  messageID : String
  payload : Option (List (Fin 256))
  properties : Option (List (String × Jval))
  headers : Option (List (String × String))

/-- The Go zero value of `protocol.MessageContext` (what a composite
literal leaves for an omitted `MessageContextOut` field). -/
def MessageContext.zero : MessageContext :=
  { messageID := "", payload := none, properties := none, headers := none }

/-- `protocol.ConnectorOperationRequest` from `protocol/protocol.go`. -/
structure ConnectorOperationRequest where
  connectorName : String
  operationName : String
  connectorConfig : Option (List (String × Jval))
  operationParams : Option (List (String × Jval))
  messageContextIn : MessageContext

/-- `protocol.ConnectorOperationResponse` from `protocol/protocol.go`. -/
structure ConnectorOperationResponse where
  success : Bool
  messageContextOut : MessageContext
  errorMessage : String

/-! ### Base64 (how `encoding/json` marshals a `[]byte` field) -/

/-- The standard base64 alphabet used by `encoding/json` for byte slices. -/
def b64Alphabet : List Char :=
  ['A','B','C','D','E','F','G','H','I','J','K','L','M','N','O','P',
   'Q','R','S','T','U','V','W','X','Y','Z',
   'a','b','c','d','e','f','g','h','i','j','k','l','m','n','o','p',
   'q','r','s','t','u','v','w','x','y','z',
   '0','1','2','3','4','5','6','7','8','9','+','/']

def sixToChar (n : Nat) : Char := b64Alphabet.getD n '?'

def charToSix (c : Char) : Option Nat := b64Alphabet.indexOf? c

theorem charToSix_sixToChar (n : Nat) (h : n < 64) : charToSix (sixToChar n) = some n := by
  have : ∀ m : Fin 64, charToSix (sixToChar m.val) = some m.val := by decide
  exact this ⟨n, h⟩

theorem sixToChar_ne_pad (n : Nat) (h : n < 64) : sixToChar n ≠ '=' := by
  have : ∀ m : Fin 64, sixToChar m.val ≠ '=' := by decide
  exact this ⟨n, h⟩

/-- Standard base64 encoding of a byte sequence (3-byte groups to 4
characters, padded with `=`). -/
def encodeB64 : List (Fin 256) → List Char
  | [] => []
  | [a] =>
      [sixToChar (a.val / 4), sixToChar (a.val % 4 * 16), '=', '=']
  | [a, b] =>
      [sixToChar (a.val / 4), sixToChar (a.val % 4 * 16 + b.val / 16),
       sixToChar (b.val % 16 * 4), '=']
  | a :: b :: c :: rest =>
      sixToChar (a.val / 4) :: sixToChar (a.val % 4 * 16 + b.val / 16) ::
      sixToChar (b.val % 16 * 4 + c.val / 64) :: sixToChar (c.val % 64) ::
      encodeB64 rest

def b64Byte1 (a b : Nat) : Fin 256 := ⟨(a * 4 + b / 16) % 256, Nat.mod_lt _ (by omega)⟩

def b64Byte2 (b c : Nat) : Fin 256 := ⟨(b % 16 * 16 + c / 4) % 256, Nat.mod_lt _ (by omega)⟩

def b64Byte3 (c d : Nat) : Fin 256 := ⟨(c % 4 * 64 + d) % 256, Nat.mod_lt _ (by omega)⟩

/-- Standard base64 decoding: groups of four characters, padding only at
the very end, any character outside the alphabet is an error. -/
def decodeB64 : List Char → Option (List (Fin 256))
  | [] => some []
  | w :: x :: y :: z :: rest =>
      match charToSix w, charToSix x with
      | some a, some b =>
          if y = '=' then
            if z = '=' ∧ rest = [] then some [b64Byte1 a b] else none
          else
            match charToSix y with
            | some c =>
                if z = '=' then
                  if rest = [] then some [b64Byte1 a b, b64Byte2 b c] else none
                else
                  match charToSix z with
                  | some d =>
                      (decodeB64 rest).map
                        (fun bs => b64Byte1 a b :: b64Byte2 b c :: b64Byte3 c d :: bs)
                  | none => none
            | none => none
      | _, _ => none
  | _ => none

theorem b64Byte1_round (a : Fin 256) (r : Nat) (hr : r < 16) :
    b64Byte1 (a.val / 4) (a.val % 4 * 16 + r) = a := by
  have ha := a.isLt
  apply Fin.ext
  show (a.val / 4 * 4 + (a.val % 4 * 16 + r) / 16) % 256 = a.val
  omega

theorem b64Byte2_round (a b : Fin 256) (r : Nat) (hr : r < 4) :
    b64Byte2 (a.val % 4 * 16 + b.val / 16) (b.val % 16 * 4 + r) = b := by
  have hb := b.isLt
  apply Fin.ext
  show ((a.val % 4 * 16 + b.val / 16) % 16 * 16 + (b.val % 16 * 4 + r) / 4) % 256 = b.val
  omega

theorem b64Byte3_round (b c : Fin 256) :
    b64Byte3 (b.val % 16 * 4 + c.val / 64) (c.val % 64) = c := by
  have hc := c.isLt
  apply Fin.ext
  show ((b.val % 16 * 4 + c.val / 64) % 4 * 64 + c.val % 64) % 256 = c.val
  omega

/-- Base64 round trip: decoding an encoded byte sequence recovers it. -/
theorem decodeB64_encodeB64 : ∀ bs : List (Fin 256), decodeB64 (encodeB64 bs) = some bs
  | [] => rfl
  | [a] => by
    have ha := a.isLt
    have h1 := charToSix_sixToChar (a.val / 4) (by omega)
    have h2 := charToSix_sixToChar (a.val % 4 * 16) (by omega)
    have hb1 : b64Byte1 (a.val / 4) (a.val % 4 * 16) = a := by
      simpa using b64Byte1_round a 0 (by omega)
    rw [encodeB64]
    simp [decodeB64, h1, h2, hb1]
  | [a, b] => by
    have ha := a.isLt
    have hb := b.isLt
    have h1 := charToSix_sixToChar (a.val / 4) (by omega)
    have h2 := charToSix_sixToChar (a.val % 4 * 16 + b.val / 16) (by omega)
    have h3 := sixToChar_ne_pad (b.val % 16 * 4) (by omega)
    have h4 := charToSix_sixToChar (b.val % 16 * 4) (by omega)
    have hb1 : b64Byte1 (a.val / 4) (a.val % 4 * 16 + b.val / 16) = a :=
      b64Byte1_round a (b.val / 16) (by omega)
    have hb2 : b64Byte2 (a.val % 4 * 16 + b.val / 16) (b.val % 16 * 4) = b := by
      simpa using b64Byte2_round a b 0 (by omega)
    rw [encodeB64]
    simp [decodeB64, h1, h2, h3, h4, hb1, hb2]
  | a :: b :: c :: d :: rest => by
    have ha := a.isLt
    have hb := b.isLt
    have hc := c.isLt
    have h1 := charToSix_sixToChar (a.val / 4) (by omega)
    have h2 := charToSix_sixToChar (a.val % 4 * 16 + b.val / 16) (by omega)
    have h3 := sixToChar_ne_pad (b.val % 16 * 4 + c.val / 64) (by omega)
    have h4 := charToSix_sixToChar (b.val % 16 * 4 + c.val / 64) (by omega)
    have h5 := sixToChar_ne_pad (c.val % 64) (by omega)
    have h6 := charToSix_sixToChar (c.val % 64) (by omega)
    have hrec := decodeB64_encodeB64 (d :: rest)
    have hb1 : b64Byte1 (a.val / 4) (a.val % 4 * 16 + b.val / 16) = a :=
      b64Byte1_round a (b.val / 16) (by omega)
    have hb2 : b64Byte2 (a.val % 4 * 16 + b.val / 16) (b.val % 16 * 4 + c.val / 64) = b :=
      b64Byte2_round a b (c.val / 64) (by omega)
    have hb3 : b64Byte3 (b.val % 16 * 4 + c.val / 64) (c.val % 64) = c :=
      b64Byte3_round b c
    rw [show encodeB64 (a :: b :: c :: d :: rest) =
        sixToChar (a.val / 4) :: sixToChar (a.val % 4 * 16 + b.val / 16) ::
        sixToChar (b.val % 16 * 4 + c.val / 64) :: sixToChar (c.val % 64) ::
        encodeB64 (d :: rest) from rfl]
    simp [decodeB64, h1, h2, h3, h4, h5, h6, hrec, hb1, hb2, hb3]
  | [a, b, c] => by
    have ha := a.isLt
    have hb := b.isLt
    have hc := c.isLt
    have h1 := charToSix_sixToChar (a.val / 4) (by omega)
    have h2 := charToSix_sixToChar (a.val % 4 * 16 + b.val / 16) (by omega)
    have h3 := sixToChar_ne_pad (b.val % 16 * 4 + c.val / 64) (by omega)
    have h4 := charToSix_sixToChar (b.val % 16 * 4 + c.val / 64) (by omega)
    have h5 := sixToChar_ne_pad (c.val % 64) (by omega)
    have h6 := charToSix_sixToChar (c.val % 64) (by omega)
    have hb1 : b64Byte1 (a.val / 4) (a.val % 4 * 16 + b.val / 16) = a :=
      b64Byte1_round a (b.val / 16) (by omega)
    have hb2 : b64Byte2 (a.val % 4 * 16 + b.val / 16) (b.val % 16 * 4 + c.val / 64) = b :=
      b64Byte2_round a b (c.val / 64) (by omega)
    have hb3 : b64Byte3 (b.val % 16 * 4 + c.val / 64) (c.val % 64) = c :=
      b64Byte3_round b c
    rw [show encodeB64 [a, b, c] =
        sixToChar (a.val / 4) :: sixToChar (a.val % 4 * 16 + b.val / 16) ::
        sixToChar (b.val % 16 * 4 + c.val / 64) :: sixToChar (c.val % 64) ::
        encodeB64 [] from rfl]
    simp [decodeB64, h1, h2, h3, h4, h5, h6, hb1, hb2, hb3]

/-! ### Wire protocol: `encoding/json` codec at the document level

`Invoke` serializes a `ConnectorOperationRequest` with `json.Encoder` and
the worker's `json.Decoder` parses it back (and symmetrically for the
response). The codec is modelled at the level of the structured JSON
document (`Jval`): a struct maps to an object keyed by the field tags in
declaration order, a nil map or nil byte slice to `null`, a byte slice
to its base64 string, and `json.Unmarshal` leaves a field at its zero
value when the key is missing or `null` and fails on a type mismatch. -/

def encodeOptObj : Option (List (String × Jval)) → Jval
  | none => Jval.null
  | some m => Jval.obj m

def encodeOptStrMap : Option (List (String × String)) → Jval
  | none => Jval.null
  | some m => Jval.obj (m.map (fun p => (p.1, Jval.str p.2)))

def encodePayload : Option (List (Fin 256)) → Jval
  | none => Jval.null
  | some bs => Jval.str (String.mk (encodeB64 bs))

/-- `json.Marshal` of a `protocol.MessageContext`. -/
def encodeMessageContext (ctx : MessageContext) : Jval :=
  Jval.obj
    [("message_id", Jval.str ctx.messageID),
     ("payload", encodePayload ctx.payload),
     ("properties", encodeOptObj ctx.properties),
     ("headers", encodeOptStrMap ctx.headers)]

/-- `json.Marshal` of a `protocol.ConnectorOperationRequest`. -/
def encodeConnectorOperationRequest (r : ConnectorOperationRequest) : Jval :=
  Jval.obj
    [("connector_name", Jval.str r.connectorName),
     ("operation_name", Jval.str r.operationName),
     ("connector_config", encodeOptObj r.connectorConfig),
     ("operation_params", encodeOptObj r.operationParams),
     ("message_context_in", encodeMessageContext r.messageContextIn)]

def decodeStr : Option Jval → Option String
  | none => some ""
  | some Jval.null => some ""
  | some (Jval.str s) => some s
  | some _ => none

def decodeObjMap : Option Jval → Option (Option (List (String × Jval)))
  | none => some none
  | some Jval.null => some none
  | some (Jval.obj fs) => some (some fs)
  | some _ => none

def decodeStrEntries : List (String × Jval) → Option (List (String × String))
  | [] => some []
  | (k, Jval.str v) :: rest => (decodeStrEntries rest).map (fun t => (k, v) :: t)
  | _ => none

def decodeStrMap : Option Jval → Option (Option (List (String × String)))
  | none => some none
  | some Jval.null => some none
  | some (Jval.obj fs) => (decodeStrEntries fs).map some
  | some _ => none

def decodePayload : Option Jval → Option (Option (List (Fin 256)))
  | none => some none
  | some Jval.null => some none
  | some (Jval.str s) => (decodeB64 s.data).map some
  | some _ => none

/-- `json.Unmarshal` of a `protocol.MessageContext`. -/
def decodeMessageContext : Jval → Option MessageContext
  | Jval.obj fs => do
      let mid ← decodeStr (mapLookup fs "message_id")
      let pl ← decodePayload (mapLookup fs "payload")
      let props ← decodeObjMap (mapLookup fs "properties")
      let hdrs ← decodeStrMap (mapLookup fs "headers")
      some ⟨mid, pl, props, hdrs⟩
  | Jval.null => some MessageContext.zero
  | _ => none

/-- `json.Unmarshal` of a `protocol.ConnectorOperationRequest`. -/
def decodeConnectorOperationRequest (j : Jval) : Option ConnectorOperationRequest :=
  match j with
  | Jval.obj fs => do
      let cn ← decodeStr (mapLookup fs "connector_name")
      let on2 ← decodeStr (mapLookup fs "operation_name")
      let cc ← decodeObjMap (mapLookup fs "connector_config")
      let op ← decodeObjMap (mapLookup fs "operation_params")
      let ctx ← match mapLookup fs "message_context_in" with
        | none => some MessageContext.zero
        | some v => decodeMessageContext v
      some ⟨cn, on2, cc, op, ctx⟩
  | _ => none

theorem decodeStrEntries_round (m : List (String × String)) :
    decodeStrEntries (m.map (fun p => (p.1, Jval.str p.2))) = some m := by
  induction m with
  | nil => rfl
  | cons p rest ih =>
    obtain ⟨k, v⟩ := p
    simp [decodeStrEntries, ih]

theorem decodeStrMap_round (m : Option (List (String × String))) :
    decodeStrMap (some (encodeOptStrMap m)) = some m := by
  cases m with
  | none => rfl
  | some m2 => simp [encodeOptStrMap, decodeStrMap, decodeStrEntries_round]

theorem decodeObjMap_round (m : Option (List (String × Jval))) :
    decodeObjMap (some (encodeOptObj m)) = some m := by
  cases m <;> rfl

theorem decodePayload_round (pl : Option (List (Fin 256))) :
    decodePayload (some (encodePayload pl)) = some pl := by
  cases pl with
  | none => rfl
  | some bs =>
    show (decodeB64 (String.mk (encodeB64 bs)).data).map some = some (some bs)
    rw [show (String.mk (encodeB64 bs)).data = encodeB64 bs from rfl]
    rw [decodeB64_encodeB64 bs]
    rfl

theorem decodeMessageContext_round (ctx : MessageContext) :
    decodeMessageContext (encodeMessageContext ctx) = some ctx := by
  obtain ⟨mid, pl, props, hdrs⟩ := ctx
  show decodeMessageContext (Jval.obj _) = _
  rw [decodeMessageContext]
  simp [mapLookup, decodeStr, decodePayload_round, decodeObjMap_round, decodeStrMap_round]

/-- C5: for every `OperationRequest` value (including ones with empty or
nil mappings, empty payload, and absent optional fields), encoding it
with the wire protocol and then decoding the encoded document yields a
value equal to the original, with all mapping and byte-sequence fields
preserved. -/
theorem request_wire_roundtrip (r : ConnectorOperationRequest) :
    decodeConnectorOperationRequest (encodeConnectorOperationRequest r) = some r := by
  obtain ⟨cn, on2, cc, op, ctx⟩ := r
  show decodeConnectorOperationRequest (Jval.obj _) = _
  rw [decodeConnectorOperationRequest]
  simp [mapLookup, decodeStr, decodeObjMap_round, decodeMessageContext_round]

/-! ### Sample worker: `connectors/simple-file-connector/main.go`

`createFile` and `readFile` are modelled as functions of the request and
a file-system oracle (outcomes of `os.MkdirAll`, `ioutil.WriteFile`,
`ioutil.ReadFile`). Each returns the response paired with the request
value as observable after the call: `outCtx := req.MessageContextIn`
copies the struct but shares the `Properties` map, so the successful
branches' writes into `outCtx.Properties` are visible through
`req.MessageContextIn.Properties` whenever that map is non-nil; the
returned second component threads this aliasing. `filepath.Join` is
modelled without `filepath.Clean` (no claim depends on the cleaned
textual form of the joined path). -/

structure FsWorld where
  mkdirResult : Option String
  writeResult : Option String
  readResult : Except String (List (Fin 256))

def filepathJoin (a b : String) : String :=
  if a = "" then b else if b = "" then a else a ++ "/" ++ b

/-- Go `m[k].(string)`: `some s` when the key is present with a string
value (`ok = true`), `none` otherwise (including a nil map). -/
def typeAssertString (m : Option (List (String × Jval))) (k : String) : Option String :=
  match m with
  | none => none
  | some mm =>
      match mapLookup mm k with
      | some (Jval.str s) => some s
      | _ => none

/-- `createFile` from the simple-file-connector. -/
def createFile (req : ConnectorOperationRequest) (w : FsWorld) :
    ConnectorOperationResponse × ConnectorOperationRequest :=
  match typeAssertString req.operationParams "filename",
        typeAssertString req.operationParams "content" with
  | some filename, some _content =>
      let baseDir0 := (typeAssertString req.connectorConfig "baseDirectory").getD ""
      let baseDir := if baseDir0 = "" then "." else baseDir0
      (match w.mkdirResult with
       | some err =>
           ({ success := false, messageContextOut := req.messageContextIn,
              errorMessage := "failed to create base directory " ++ baseDir ++ ": " ++ err },
            req)
       | none =>
           let fullPath := filepathJoin baseDir filename
           match w.writeResult with
           | some err =>
               ({ success := false, messageContextOut := req.messageContextIn,
                  errorMessage := "failed to write file " ++ fullPath ++ ": " ++ err },
                req)
           | none =>
               match req.messageContextIn.properties with
               | none =>
                   let pm := mapInsert (mapInsert [] "file.write.path" (Jval.str fullPath))
                     "file.write.status" (Jval.str "success")
                   ({ success := true,
                      messageContextOut := { req.messageContextIn with properties := some pm },
                      errorMessage := "" },
                    req)
               | some pm0 =>
                   let pm := mapInsert (mapInsert pm0 "file.write.path" (Jval.str fullPath))
                     "file.write.status" (Jval.str "success")
                   ({ success := true,
                      messageContextOut := { req.messageContextIn with properties := some pm },
                      errorMessage := "" },
                    { req with
                      messageContextIn := { req.messageContextIn with properties := some pm } }))
  | _, _ =>
      ({ success := false, messageContextOut := req.messageContextIn,
         errorMessage := "filename or content parameter missing/invalid" },
       req)

/-- `readFile` from the simple-file-connector. -/
def readFile (req : ConnectorOperationRequest) (w : FsWorld) :
    ConnectorOperationResponse × ConnectorOperationRequest :=
  match typeAssertString req.operationParams "filename" with
  | none =>
      ({ success := false, messageContextOut := req.messageContextIn,
         errorMessage := "filename parameter missing/invalid" },
       req)
  | some filename =>
      let baseDir0 := (typeAssertString req.connectorConfig "baseDirectory").getD ""
      let baseDir := if baseDir0 = "" then "." else baseDir0
      let fullPath := filepathJoin baseDir filename
      match w.readResult with
      | Except.error err =>
          ({ success := false, messageContextOut := req.messageContextIn,
             errorMessage := "failed to read file " ++ fullPath ++ ": " ++ err },
           req)
      | Except.ok data =>
          match req.messageContextIn.properties with
          | none =>
              let pm := mapInsert [] "file.read.path" (Jval.str fullPath)
              ({ success := true,
                 messageContextOut :=
                   { req.messageContextIn with payload := some data, properties := some pm },
                 errorMessage := "" },
               req)
          | some pm0 =>
              let pm := mapInsert pm0 "file.read.path" (Jval.str fullPath)
              ({ success := true,
                 messageContextOut :=
                   { req.messageContextIn with payload := some data, properties := some pm },
                 errorMessage := "" },
               { req with
                 messageContextIn := { req.messageContextIn with properties := some pm } })

/-- The operation dispatch of `handleConnection` (the `switch` on
`req.OperationName`, including its default branch). -/
def handleRequest (req : ConnectorOperationRequest) (w : FsWorld) :
    ConnectorOperationResponse × ConnectorOperationRequest :=
  match req.operationName with
  | "create" => createFile req w
  | "read" => readFile req w
  | _ =>
      ({ success := false, messageContextOut := req.messageContextIn,
         errorMessage := "Unknown operation: " ++ req.operationName },
       req)

theorem String.append_ne_empty_of_left (s t : String) (h : 0 < s.length) : s ++ t ≠ "" := by
  intro he
  have h2 : (s ++ t).length = 0 := by rw [he]; rfl
  rw [String.length_append] at h2
  omega

theorem String.append_length_pos (s t : String) (h : 0 < s.length) : 0 < (s ++ t).length := by
  rw [String.length_append]; omega

/-- C6: for every request on which a worker operation fails for a
business reason (missing/invalid parameter, file-system error), the
returned `OperationResponse` has `success = false`, a non-empty
`errorMessage`, and a `messageContextOut` equal field-for-field to the
request's `messageContextIn` (unmodified echo). -/
theorem worker_business_failure_echoes_context (req : ConnectorOperationRequest) (w : FsWorld) :
    ((createFile req w).1.success = false →
      (createFile req w).1.errorMessage ≠ "" ∧
      (createFile req w).1.messageContextOut = req.messageContextIn) ∧
    ((readFile req w).1.success = false →
      (readFile req w).1.errorMessage ≠ "" ∧
      (readFile req w).1.messageContextOut = req.messageContextIn) := by
  constructor
  · intro hs
    cases hf : typeAssertString req.operationParams "filename" with
    | none => simp [createFile, hf]
    | some filename =>
      cases hc : typeAssertString req.operationParams "content" with
      | none => simp [createFile, hf, hc]
      | some content =>
        cases hm : w.mkdirResult with
        | some err =>
          refine ⟨?_, ?_⟩
          · simp only [createFile, hf, hc, hm]
            apply String.append_ne_empty_of_left
            apply String.append_length_pos
            apply String.append_length_pos
            decide
          · simp [createFile, hf, hc, hm]
        | none =>
          cases hw : w.writeResult with
          | some err =>
            refine ⟨?_, ?_⟩
            · simp only [createFile, hf, hc, hm, hw]
              apply String.append_ne_empty_of_left
              apply String.append_length_pos
              apply String.append_length_pos
              decide
            · simp [createFile, hf, hc, hm, hw]
          | none =>
            exfalso
            cases hp : req.messageContextIn.properties with
            | none => simp [createFile, hf, hc, hm, hw, hp] at hs
            | some pm => simp [createFile, hf, hc, hm, hw, hp] at hs
  · intro hs
    cases hf : typeAssertString req.operationParams "filename" with
    | none => simp [readFile, hf]
    | some filename =>
      cases hr : w.readResult with
      | error err =>
        refine ⟨?_, ?_⟩
        · simp only [readFile, hf, hr]
          apply String.append_ne_empty_of_left
          apply String.append_length_pos
          apply String.append_length_pos
          decide
        · simp [readFile, hf, hr]
      | ok data =>
        exfalso
        cases hp : req.messageContextIn.properties with
        | none => simp [readFile, hf, hr, hp] at hs
        | some pm => simp [readFile, hf, hr, hp] at hs

theorem worker_business_failure_echoes_context_witness :
    (readFile ⟨"SimpleFileConnector", "read", none, none, ⟨"m1", none, none, none⟩⟩
        ⟨none, none, Except.error "no such file"⟩).1.success = false ∧
    (readFile ⟨"SimpleFileConnector", "read", none, none, ⟨"m1", none, none, none⟩⟩
        ⟨none, none, Except.error "no such file"⟩).1.messageContextOut =
      (⟨"m1", none, none, none⟩ : MessageContext) :=
  ⟨rfl, ((worker_business_failure_echoes_context
      ⟨"SimpleFileConnector", "read", none, none, ⟨"m1", none, none, none⟩⟩
      ⟨none, none, Except.error "no such file"⟩).2 rfl).2⟩

/-- C4 counterexample: on a successful `createFile` whose request carries
a non-nil `Properties` map, the write into `outCtx.Properties` is
visible through the request's `MessageContextIn.Properties` (the struct
copy shares the map), so the input request is NOT left unchanged. -/
theorem worker_mutates_request_properties :
    ((createFile
        ⟨"SimpleFileConnector", "create", none,
          some [("filename", Jval.str "t.txt"), ("content", Jval.str "hi")],
          ⟨"m1", none, some [("flowName", Jval.str "f")], none⟩⟩
        ⟨none, none, Except.ok []⟩).2).messageContextIn.properties
      ≠ some [("flowName", Jval.str "f")] := by
  have hcomp : ((createFile
      ⟨"SimpleFileConnector", "create", none,
        some [("filename", Jval.str "t.txt"), ("content", Jval.str "hi")],
        ⟨"m1", none, some [("flowName", Jval.str "f")], none⟩⟩
      ⟨none, none, Except.ok []⟩).2).messageContextIn.properties =
      some [("flowName", Jval.str "f"), ("file.write.path", Jval.str "./t.txt"),
            ("file.write.status", Jval.str "success")] := rfl
  rw [hcomp]
  intro h
  have h2 := congrArg (fun o => (Option.getD o []).length) h
  simp at h2

/-- C4 amended: a worker operation never mutates the caller's context
across the wire (the worker holds its own decoded copy), but inside the
worker the response's `messageContextOut` shares the request's
`Properties` map rather than being independent: on a successful
`createFile`/`readFile` with non-nil `Properties` the inserted
properties are visible through the request's `MessageContextIn` as well,
while on every failure branch, on the unknown-operation branch, and
whenever `Properties` is nil (a fresh map is allocated) the request is
left unchanged; no field other than the `Properties` mapping is ever
mutated in place. -/
theorem worker_request_mutation_characterized (req : ConnectorOperationRequest) (w : FsWorld) :
    ((createFile req w).1.success = false → (createFile req w).2 = req) ∧
    (req.messageContextIn.properties = none → (createFile req w).2 = req) ∧
    ((createFile req w).1.success = true → req.messageContextIn.properties ≠ none →
      (createFile req w).2 =
        { req with messageContextIn :=
            { req.messageContextIn with
              properties := (createFile req w).1.messageContextOut.properties } }) ∧
    ((readFile req w).1.success = false → (readFile req w).2 = req) ∧
    (req.messageContextIn.properties = none → (readFile req w).2 = req) ∧
    ((readFile req w).1.success = true → req.messageContextIn.properties ≠ none →
      (readFile req w).2 =
        { req with messageContextIn :=
            { req.messageContextIn with
              properties := (readFile req w).1.messageContextOut.properties } }) ∧
    (req.operationName ≠ "create" → req.operationName ≠ "read" →
      (handleRequest req w).2 = req ∧
      (handleRequest req w).1.messageContextOut = req.messageContextIn) := by
  refine ⟨?_, ?_, ?_, ?_, ?_, ?_, ?_⟩
  · intro hs
    cases hf : typeAssertString req.operationParams "filename" with
    | none => simp [createFile, hf]
    | some filename =>
      cases hc : typeAssertString req.operationParams "content" with
      | none => simp [createFile, hf, hc]
      | some content =>
        cases hm : w.mkdirResult with
        | some err => simp [createFile, hf, hc, hm]
        | none =>
          cases hw : w.writeResult with
          | some err => simp [createFile, hf, hc, hm, hw]
          | none =>
            exfalso
            cases hp : req.messageContextIn.properties with
            | none => simp [createFile, hf, hc, hm, hw, hp] at hs
            | some pm => simp [createFile, hf, hc, hm, hw, hp] at hs
  · intro hp
    cases hf : typeAssertString req.operationParams "filename" with
    | none => simp [createFile, hf]
    | some filename =>
      cases hc : typeAssertString req.operationParams "content" with
      | none => simp [createFile, hf, hc]
      | some content =>
        cases hm : w.mkdirResult with
        | some err => simp [createFile, hf, hc, hm]
        | none =>
          cases hw : w.writeResult with
          | some err => simp [createFile, hf, hc, hm, hw]
          | none => simp [createFile, hf, hc, hm, hw, hp]
  · intro hs hp
    cases hf : typeAssertString req.operationParams "filename" with
    | none => simp [createFile, hf] at hs
    | some filename =>
      cases hc : typeAssertString req.operationParams "content" with
      | none => simp [createFile, hf, hc] at hs
      | some content =>
        cases hm : w.mkdirResult with
        | some err => simp [createFile, hf, hc, hm] at hs
        | none =>
          cases hw : w.writeResult with
          | some err => simp [createFile, hf, hc, hm, hw] at hs
          | none =>
            cases hpv : req.messageContextIn.properties with
            | none => exact absurd hpv hp
            | some pm => simp [createFile, hf, hc, hm, hw, hpv]
  · intro hs
    cases hf : typeAssertString req.operationParams "filename" with
    | none => simp [readFile, hf]
    | some filename =>
      cases hr : w.readResult with
      | error err => simp [readFile, hf, hr]
      | ok data =>
        exfalso
        cases hp : req.messageContextIn.properties with
        | none => simp [readFile, hf, hr, hp] at hs
        | some pm => simp [readFile, hf, hr, hp] at hs
  · intro hp
    cases hf : typeAssertString req.operationParams "filename" with
    | none => simp [readFile, hf]
    | some filename =>
      cases hr : w.readResult with
      | error err => simp [readFile, hf, hr]
      | ok data => simp [readFile, hf, hr, hp]
  · intro hs hp
    cases hf : typeAssertString req.operationParams "filename" with
    | none => simp [readFile, hf] at hs
    | some filename =>
      cases hr : w.readResult with
      | error err => simp [readFile, hf, hr] at hs
      | ok data =>
        cases hpv : req.messageContextIn.properties with
        | none => exact absurd hpv hp
        | some pm => simp [readFile, hf, hr, hpv]
  · intro h1 h2
    have hu : handleRequest req w =
        ({ success := false, messageContextOut := req.messageContextIn,
           errorMessage := "Unknown operation: " ++ req.operationName }, req) := by
      unfold handleRequest
      split
      · next heq => exact absurd heq h1
      · next heq => exact absurd heq h2
      · rfl
    rw [hu]
    exact ⟨rfl, rfl⟩

theorem worker_request_mutation_characterized_witness :
    (createFile
        ⟨"SimpleFileConnector", "create", none,
          some [("filename", Jval.str "t.txt"), ("content", Jval.str "hi")],
          ⟨"m1", none, some [("flowName", Jval.str "f")], none⟩⟩
        ⟨none, none, Except.ok []⟩).1.success = true ∧
    (createFile
        ⟨"SimpleFileConnector", "create", none,
          some [("filename", Jval.str "t.txt"), ("content", Jval.str "hi")],
          ⟨"m1", none, some [("flowName", Jval.str "f")], none⟩⟩
        ⟨none, none, Except.ok []⟩).2 =
      ⟨"SimpleFileConnector", "create", none,
        some [("filename", Jval.str "t.txt"), ("content", Jval.str "hi")],
        ⟨"m1", none,
          some [("flowName", Jval.str "f"), ("file.write.path", Jval.str "./t.txt"),
                ("file.write.status", Jval.str "success")], none⟩⟩ := by
  refine ⟨rfl, ?_⟩
  have h := (worker_request_mutation_characterized
      ⟨"SimpleFileConnector", "create", none,
        some [("filename", Jval.str "t.txt"), ("content", Jval.str "hi")],
        ⟨"m1", none, some [("flowName", Jval.str "f")], none⟩⟩
      ⟨none, none, Except.ok []⟩).2.2.1 rfl (Option.some_ne_none _)
  exact h

/-! ### Connector manager: `synapse-server/connector_manager.go` -/

/-- `ConnectorDefinition` from `connector_manager.go`. `defaultConfig`
is a possibly-nil `map[string]interface{}`. -/
structure ConnectorDefinition where
  name : String
  executablePathRelativeToConnectorsDir : String
  defaultPort : Int
  defaultConfig : Option (List (String × Jval))

/-- Model of `os.ProcessState` as observed by the manager
(`ProcessState != nil` means the process has been waited on;
`Exited()` is its exit observation). -/
structure GoProcessState where
  exited : Bool

/-- Model of an `exec.Cmd` as observed by the manager: whether
`cmd.Process` is non-nil and the (possibly absent) `ProcessState`. -/
structure GoCmd where
  hasProcess : Bool
  processState : Option GoProcessState

/-- `RunningConnectorInstance` from `connector_manager.go` (the
per-instance mutex serializes invocations and carries no data). -/
structure RunningConnectorInstance where
  definition : ConnectorDefinition
  cmd : Option GoCmd
  port : Int

/-- `ConnectorManager` from `connector_manager.go`. -/
structure ConnectorManager where
  connectorDefinitions : List (String × ConnectorDefinition)
  runningInstances : List (String × RunningConnectorInstance)
  connectorsBaseDir : String

/-- One directory entry of the definitions directory together with the
outcome of the external effects applied to it: `readResult` is the
outcome of `ioutil.ReadFile` (`some err` = failure) and `parseResult`
the outcome of `json.Unmarshal` on the read bytes (`none` = failure). -/
structure DefRecord where
  fileName : String
  readResult : Option String
  parseResult : Option ConnectorDefinition

/-- Go `filepath.Ext`: the suffix from the final dot in the final path
element, empty when there is none. -/
def filepathExt (s : String) : String :=
  let rev := s.data.reverse
  let pre := rev.takeWhile (fun c => !(c = '.' || c = '/'))
  match rev.drop pre.length with
  | '.' :: _ => String.mk ('.' :: pre.reverse)
  | _ => ""

/-- The loop body of `NewConnectorManager`: a `.json` entry that reads
and parses successfully is stored under `def.Name` (later entries
overwrite earlier ones); unreadable or unparsable entries are skipped
with a warning, every other entry is ignored. -/
def loadDefinitionStep (table : List (String × ConnectorDefinition)) (r : DefRecord) :
    List (String × ConnectorDefinition) :=
  if filepathExt r.fileName = ".json" then
    match r.readResult with
    | some _ => table
    | none =>
        match r.parseResult with
        | none => table
        | some d => mapInsert table d.name d
  else table

/-- `NewConnectorManager` on a readable definitions directory (the
whole-directory `ReadDir` failure aborts before any record is processed
and is not modelled): loads the definition table and starts with no
running instances. -/
def NewConnectorManager (records : List DefRecord) (connectorsBaseDir : String) :
    ConnectorManager :=
  { connectorDefinitions := records.foldl loadDefinitionStep []
    runningInstances := []
    connectorsBaseDir := connectorsBaseDir }

/-- The definitions that load successfully, in load order: `.json` name,
readable, parsable. -/
def parsedDefinitions (records : List DefRecord) : List ConnectorDefinition :=
  records.filterMap (fun r =>
    if filepathExt r.fileName = ".json" then
      match r.readResult with
      | some _ => none
      | none => r.parseResult
    else none)

theorem mapLookup_mapInsert (acc : List (String × ConnectorDefinition))
    (d : ConnectorDefinition) (n : String) :
    mapLookup (mapInsert acc d.name d) n =
      (if d.name = n then some d else mapLookup acc n) := by
  by_cases h : d.name = n
  · rw [if_pos h, ← h]
    exact mapLookup_mapInsert_self acc d.name d
  · rw [if_neg h]
    exact mapLookup_mapInsert_ne acc d.name n d (fun he => h he.symm)

theorem foldl_load_lookup (records : List DefRecord)
    (acc : List (String × ConnectorDefinition)) (n : String) :
    mapLookup (records.foldl loadDefinitionStep acc) n =
      (parsedDefinitions records).foldl
        (fun o d => if d.name = n then some d else o) (mapLookup acc n) := by
  induction records generalizing acc with
  | nil => rfl
  | cons r rest ih =>
    by_cases he : filepathExt r.fileName = ".json"
    · cases hr : r.readResult with
      | some err =>
        rw [List.foldl_cons]
        rw [show loadDefinitionStep acc r = acc by simp [loadDefinitionStep, he, hr]]
        rw [show parsedDefinitions (r :: rest) = parsedDefinitions rest by
          simp [parsedDefinitions, he, hr]]
        exact ih acc
      | none =>
        cases hp : r.parseResult with
        | none =>
          rw [List.foldl_cons]
          rw [show loadDefinitionStep acc r = acc by simp [loadDefinitionStep, he, hr, hp]]
          rw [show parsedDefinitions (r :: rest) = parsedDefinitions rest by
            simp [parsedDefinitions, he, hr, hp]]
          exact ih acc
        | some d =>
          rw [List.foldl_cons]
          rw [show loadDefinitionStep acc r = mapInsert acc d.name d by
            simp [loadDefinitionStep, he, hr, hp]]
          rw [show parsedDefinitions (r :: rest) = d :: parsedDefinitions rest by
            simp [parsedDefinitions, he, hr, hp]]
          rw [List.foldl_cons]
          rw [ih (mapInsert acc d.name d)]
          rw [mapLookup_mapInsert acc d n]
    · rw [List.foldl_cons]
      rw [show loadDefinitionStep acc r = acc by simp [loadDefinitionStep, he]]
      rw [show parsedDefinitions (r :: rest) = parsedDefinitions rest by
        simp [parsedDefinitions, he]]
      exact ih acc

/-- C7: for every input collection of definition records,
`NewConnectorManager` skips each unreadable or unparsable record and
still returns a store containing exactly the successfully parsed
definitions keyed by name — for every name the stored definition is the
last successfully parsed record with that name (none when there is
none, so an empty result is valid), deterministically in load order. -/
theorem newConnectorManager_loads_exactly_parsed (records : List DefRecord)
    (dir : String) (n : String) :
    mapLookup (NewConnectorManager records dir).connectorDefinitions n =
      (parsedDefinitions records).foldl
        (fun o d => if d.name = n then some d else o) none ∧
    (NewConnectorManager records dir).runningInstances = [] :=
  ⟨foldl_load_lookup records [] n, rfl⟩

/-! ### Process supervisor and invocation broker -/

/-- Oracle for the external effects of starting a worker process:
`os.Stat` on the executable, `os.Stat` on the `.exe` fallback, and
`cmd.Start()`. -/
structure SpawnWorld where
  exeExists : Bool
  exeExeExists : Bool
  startErr : Option String

/-- Oracle for the external effects of one `Invoke`: the spawn effects,
`net.DialTimeout`, `encoder.Encode`, and `decoder.Decode` (whose success
carries the worker's response). -/
structure InvokeWorld where
  spawn : SpawnWorld
  dialErr : Option String
  encodeErr : Option String
  decodeResult : Except String ConnectorOperationResponse

/-- The fast-path staleness test of `getOrStartInstance`:
`instance.Cmd == nil || (instance.Cmd.ProcessState != nil &&
instance.Cmd.ProcessState.Exited())`. -/
def instCmdDeadOrNil (inst : RunningConnectorInstance) : Bool :=
  match inst.cmd with
  | none => true
  | some c =>
      match c.processState with
      | none => false
      | some ps => ps.exited

/-- The double-check health test of `getOrStartInstance` under the write
lock: `instance.Cmd != nil && (instance.Cmd.ProcessState == nil ||
!instance.Cmd.ProcessState.Exited())`. -/
def instHealthyLocked (inst : RunningConnectorInstance) : Bool :=
  match inst.cmd with
  | none => false
  | some c =>
      match c.processState with
      | none => true
      | some ps => !ps.exited

/-- The read-locked fast path of `getOrStartInstance`: `some inst` when a
tracked instance exists and is not observed dead. -/
def getOrStartFastPath (cm : ConnectorManager) (connectorName : String) :
    Option RunningConnectorInstance :=
  match mapLookup cm.runningInstances connectorName with
  | some inst => if instCmdDeadOrNil inst then none else some inst
  | none => none

/-- The write-locked section of `getOrStartInstance`: re-check the table,
then resolve the definition, locate the executable (with the `.exe`
fallback), start the process, and record the new instance. The third
component reports whether a process was spawned. -/
def getOrStartLockedPhase (cm : ConnectorManager) (connectorName : String) (w : SpawnWorld) :
    Except String RunningConnectorInstance × ConnectorManager × Bool :=
  match mapLookup cm.runningInstances connectorName with
  | some inst =>
      if instHealthyLocked inst then (Except.ok inst, cm, false)
      else getOrStartSpawn cm connectorName w
  | none => getOrStartSpawn cm connectorName w
where
  getOrStartSpawn (cm : ConnectorManager) (connectorName : String) (w : SpawnWorld) :
      Except String RunningConnectorInstance × ConnectorManager × Bool :=
    match mapLookup cm.connectorDefinitions connectorName with
    | none =>
        (Except.error ("connector definition for \x27" ++ connectorName ++ "\x27 not found"),
         cm, false)
    | some def2 =>
        let executablePath :=
          filepathJoin cm.connectorsBaseDir def2.executablePathRelativeToConnectorsDir
        if w.exeExists ∨ w.exeExeExists then
          match w.startErr with
          | some e =>
              (Except.error ("failed to start connector \x27" ++ connectorName ++ "\x27: " ++ e),
               cm, false)
          | none =>
              let newInstance : RunningConnectorInstance :=
                { definition := def2
                  cmd := some { hasProcess := true, processState := none }
                  port := def2.defaultPort }
              (Except.ok newInstance,
               { cm with runningInstances := mapInsert cm.runningInstances connectorName newInstance },
               true)
        else
          (Except.error ("connector executable not found at " ++ executablePath ++ " or " ++
             executablePath ++ ".exe"), cm, false)

/-- `getOrStartInstance` from `connector_manager.go`: read-locked fast
path, then the write-locked double-checked section. -/
def getOrStartInstance (cm : ConnectorManager) (connectorName : String) (w : SpawnWorld) :
    Except String RunningConnectorInstance × ConnectorManager :=
  match getOrStartFastPath cm connectorName with
  | some inst => (Except.ok inst, cm)
  | none =>
      let r := getOrStartLockedPhase cm connectorName w
      (r.1, r.2.1)

/-- The config merge of `Invoke`:
`currentConnectorConfig := instance.Definition.DefaultConfig` followed by
the override loop (`currentConnectorConfig[k] = v` for each override
entry, on a fresh map when the default was nil). -/
def effectiveConfig (dflt ov : Option (List (String × Jval))) :
    Option (List (String × Jval)) :=
  match ov with
  | none => dflt
  | some o => some (o.foldl (fun m p => mapInsert m p.1 p.2) (dflt.getD []))

/-- The `OperationRequest` that `Invoke` builds and encodes onto the
connection. -/
def invokeRequest (instDef : ConnectorDefinition) (connectorName operationName : String)
    (connectorConfigOverride operationParams : Option (List (String × Jval)))
    (msgCtxIn : MessageContext) : ConnectorOperationRequest :=
  { connectorName := connectorName
    operationName := operationName
    connectorConfig := effectiveConfig instDef.defaultConfig connectorConfigOverride
    operationParams := operationParams
    messageContextIn := msgCtxIn }

/-- In-place write of a shared `DefaultConfig` map object, as seen
through the definition table entry that holds it. -/
def writeDefConfigDefs (table : List (String × ConnectorDefinition)) (name : String)
    (cfg : Option (List (String × Jval))) : List (String × ConnectorDefinition) :=
  table.map (fun p => if p.1 = name then (p.1, { p.2 with defaultConfig := cfg }) else p)

/-- In-place write of a shared `DefaultConfig` map object, as seen
through the instance-table entry whose `Definition` holds it. -/
def writeDefConfigInsts (table : List (String × RunningConnectorInstance)) (name : String)
    (cfg : Option (List (String × Jval))) : List (String × RunningConnectorInstance) :=
  table.map (fun p =>
    if p.1 = name then
      (p.1, { p.2 with definition := { p.2.definition with defaultConfig := cfg } })
    else p)

/-- `Invoke` from `connector_manager.go`. Returns the response, the Go
`error` result (`some` = non-nil), and the manager state after the call.
The override loop of the config merge writes through the map reference
obtained from `instance.Definition.DefaultConfig`; when that map is
non-nil it is the same object stored in the definition table (and in the
instance's definition copy), so the merge is visible there — the state
update threads this heap write. -/
def Invoke (cm : ConnectorManager) (connectorName operationName : String)
    (connectorConfigOverride operationParams : Option (List (String × Jval)))
    (msgCtxIn : MessageContext) (w : InvokeWorld) :
    ConnectorOperationResponse × Option String × ConnectorManager :=
  match getOrStartInstance cm connectorName w.spawn with
  | (Except.error err, cm1) =>
      ({ success := false, messageContextOut := MessageContext.zero, errorMessage := err },
       some err, cm1)
  | (Except.ok inst, cm1) =>
      match w.dialErr with
      | some derr =>
          ({ success := false, messageContextOut := MessageContext.zero,
             errorMessage :=
               "failed to connect to connector \x27" ++ connectorName ++ "\x27: " ++ derr },
           some derr, cm1)
      | none =>
          let req := invokeRequest inst.definition connectorName operationName
            connectorConfigOverride operationParams msgCtxIn
          let cm2 :=
            match inst.definition.defaultConfig, connectorConfigOverride with
            | some _, some _ =>
                { cm1 with
                  connectorDefinitions :=
                    writeDefConfigDefs cm1.connectorDefinitions connectorName req.connectorConfig
                  runningInstances :=
                    writeDefConfigInsts cm1.runningInstances connectorName req.connectorConfig }
            | _, _ => cm1
          match w.encodeErr with
          | some eerr =>
              ({ success := false, messageContextOut := MessageContext.zero,
                 errorMessage :=
                   "failed to send request to connector \x27" ++ connectorName ++ "\x27: " ++ eerr },
               some eerr, cm2)
          | none =>
              match w.decodeResult with
              | Except.error derr2 =>
                  ({ success := false, messageContextOut := MessageContext.zero,
                     errorMessage :=
                       "failed to decode response from connector \x27" ++ connectorName ++
                         "\x27: " ++ derr2 },
                   some derr2, cm2)
              | Except.ok resp => (resp, none, cm2)

/-- `ShutdownAll` from `connector_manager.go`: signals every tracked
instance that has a process (interrupt, falling back to kill when the
signal fails — the second component records, per instance, whether the
fallback kill was used), waits for each, then replaces the instance
table with a fresh empty map. -/
def ShutdownAll (cm : ConnectorManager) (signalFails : String → Bool) :
    ConnectorManager × List (String × Bool) :=
  ({ cm with runningInstances := [] },
   cm.runningInstances.filterMap (fun p =>
     match p.2.cmd with
     | some c => if c.hasProcess then some (p.1, signalFails p.1) else none
     | none => none))

/-- C9: `ShutdownAll` is idempotent — for every manager state a call
leaves zero tracked instances, and an immediate second call performs no
termination actions, does not fail, and again leaves zero tracked
instances (the state is unchanged). -/
theorem shutdownAll_idempotent (cm : ConnectorManager) (signalFails : String → Bool) :
    (ShutdownAll cm signalFails).1.runningInstances = [] ∧
    (ShutdownAll (ShutdownAll cm signalFails).1 signalFails).1.runningInstances = [] ∧
    (ShutdownAll (ShutdownAll cm signalFails).1 signalFails).2 = [] ∧
    (ShutdownAll (ShutdownAll cm signalFails).1 signalFails).1 =
      (ShutdownAll cm signalFails).1 :=
  ⟨rfl, rfl, rfl, rfl⟩

theorem mergeFold_lookup_notmem (ov : List (String × Jval))
    (cur : List (String × Jval)) (k : String) (h : k ∉ ov.map Prod.fst) :
    mapLookup (ov.foldl (fun m p => mapInsert m p.1 p.2) cur) k = mapLookup cur k := by
  induction ov generalizing cur with
  | nil => rfl
  | cons p rest ih =>
    simp only [List.map_cons, List.mem_cons, not_or] at h
    rw [List.foldl_cons, ih (mapInsert cur p.1 p.2) h.2]
    exact mapLookup_mapInsert_ne cur p.1 k p.2 h.1

theorem mergeFold_lookup_mem (ov : List (String × Jval))
    (cur : List (String × Jval)) (k : String) (v : Jval)
    (hnd : (ov.map Prod.fst).Nodup) (hm : (k, v) ∈ ov) :
    mapLookup (ov.foldl (fun m p => mapInsert m p.1 p.2) cur) k = some v := by
  induction ov generalizing cur with
  | nil => cases hm
  | cons p rest ih =>
    simp only [List.map_cons, List.nodup_cons] at hnd
    rcases List.mem_cons.mp hm with heq | htail
    · subst heq
      rw [List.foldl_cons]
      rw [mergeFold_lookup_notmem rest (mapInsert cur k v) k hnd.1]
      exact mapLookup_mapInsert_self cur k v
    · rw [List.foldl_cons]
      exact ih (mapInsert cur p.1 p.2) hnd.2 htail

/-- C3: for every `defaultConfig` mapping and every (possibly nil)
per-call override mapping, the effective `connectorConfig` placed in the
`OperationRequest` maps each key present in the override to the
override's value and each key present only in `defaultConfig` to the
default's value; in particular `defaultConfig = {baseDirectory: /a}`
with override `{baseDirectory: /b, x: y}` yields
`{baseDirectory: /b, x: y}`, and a nil override leaves the default
untouched. -/
theorem config_merge_override_precedence :
    (∀ (instDef : ConnectorDefinition) (cn op : String)
        (ov : Option (List (String × Jval))) (params : Option (List (String × Jval)))
        (ctx : MessageContext),
      (invokeRequest instDef cn op ov params ctx).connectorConfig =
        effectiveConfig instDef.defaultConfig ov) ∧
    (∀ (dflt : Option (List (String × Jval))) (ov : List (String × Jval)) (k : String)
        (v : Jval), (ov.map Prod.fst).Nodup → (k, v) ∈ ov →
      mapLookup ((effectiveConfig dflt (some ov)).getD []) k = some v) ∧
    (∀ (dflt : Option (List (String × Jval))) (ov : List (String × Jval)) (k : String),
        k ∉ ov.map Prod.fst →
      mapLookup ((effectiveConfig dflt (some ov)).getD []) k = mapLookup (dflt.getD []) k) ∧
    (∀ dflt : Option (List (String × Jval)), effectiveConfig dflt none = dflt) ∧
    effectiveConfig (some [("baseDirectory", Jval.str "/a")])
        (some [("baseDirectory", Jval.str "/b"), ("x", Jval.str "y")]) =
      some [("baseDirectory", Jval.str "/b"), ("x", Jval.str "y")] := by
  refine ⟨fun _ _ _ _ _ _ => rfl, ?_, ?_, fun _ => rfl, rfl⟩
  · intro dflt ov k v hnd hm
    exact mergeFold_lookup_mem ov (dflt.getD []) k v hnd hm
  · intro dflt ov k h
    exact mergeFold_lookup_notmem ov (dflt.getD []) k h

theorem config_merge_override_precedence_witness :
    mapLookup ((effectiveConfig (some [("baseDirectory", Jval.str "/a")])
        (some [("baseDirectory", Jval.str "/b"), ("x", Jval.str "y")])).getD []) "x" =
      some (Jval.str "y") :=
  config_merge_override_precedence.2.1 (some [("baseDirectory", Jval.str "/a")])
    [("baseDirectory", Jval.str "/b"), ("x", Jval.str "y")] "x" (Jval.str "y")
    (by simp) (by simp)

/-- C8: when a tracked, not-observed-dead instance exists for the name
and the connection attempt fails, `Invoke` returns the transport error
(tagged with the connector name in the synthetic response's
`errorMessage`) and the manager state — in particular the supervisor's
instance table — is completely unchanged: the instance stays tracked as
running and nothing triggers a restart. -/
theorem invoke_connect_failure_frame (cm : ConnectorManager)
    (name op : String) (ov params : Option (List (String × Jval)))
    (ctx : MessageContext) (w : InvokeWorld) (inst : RunningConnectorInstance)
    (derr : String)
    (hl : mapLookup cm.runningInstances name = some inst)
    (hh : instCmdDeadOrNil inst = false)
    (hd : w.dialErr = some derr) :
    Invoke cm name op ov params ctx w =
      ({ success := false, messageContextOut := MessageContext.zero,
         errorMessage := "failed to connect to connector \x27" ++ name ++ "\x27: " ++ derr },
       some derr, cm) := by
  unfold Invoke getOrStartInstance getOrStartFastPath
  simp [hl, hh, hd]

theorem invoke_connect_failure_frame_witness :
    Invoke
        ⟨[("F", ⟨"F", "f/f", 9091, none⟩)],
         [("F", ⟨⟨"F", "f/f", 9091, none⟩, some ⟨true, none⟩, 9091⟩)],
         "../connectors"⟩
        "F" "create" none none ⟨"m1", none, none, none⟩
        ⟨⟨true, false, none⟩, some "connection refused", none,
         Except.error "unused"⟩ =
      ({ success := false, messageContextOut := MessageContext.zero,
         errorMessage :=
           "failed to connect to connector \x27F\x27: connection refused" },
       some "connection refused",
       ⟨[("F", ⟨"F", "f/f", 9091, none⟩)],
        [("F", ⟨⟨"F", "f/f", 9091, none⟩, some ⟨true, none⟩, 9091⟩)],
        "../connectors"⟩) :=
  invoke_connect_failure_frame _ "F" "create" none none _ _ _ "connection refused"
    rfl rfl rfl

theorem getOrStartSpawn_error_cases (cm : ConnectorManager) (name : String)
    (w : SpawnWorld) (e : String)
    (h : (getOrStartLockedPhase.getOrStartSpawn cm name w).1 = Except.error e) :
    e = "connector definition for \x27" ++ name ++ "\x27 not found" ∨
    (∃ p, e = "connector executable not found at " ++ p ++ " or " ++ p ++ ".exe") ∨
    (∃ se, e = "failed to start connector \x27" ++ name ++ "\x27: " ++ se) := by
  simp only [getOrStartLockedPhase.getOrStartSpawn] at h
  split at h
  · simp only [Except.error.injEq] at h
    exact Or.inl h.symm
  · split at h
    · split at h
      · simp only [Except.error.injEq] at h
        exact Or.inr (Or.inr ⟨_, h.symm⟩)
      · simp at h
    · simp only [Except.error.injEq] at h
      exact Or.inr (Or.inl ⟨_, h.symm⟩)

theorem getOrStartLockedPhase_error_cases (cm : ConnectorManager) (name : String)
    (w : SpawnWorld) (e : String)
    (h : (getOrStartLockedPhase cm name w).1 = Except.error e) :
    e = "connector definition for \x27" ++ name ++ "\x27 not found" ∨
    (∃ p, e = "connector executable not found at " ++ p ++ " or " ++ p ++ ".exe") ∨
    (∃ se, e = "failed to start connector \x27" ++ name ++ "\x27: " ++ se) := by
  simp only [getOrStartLockedPhase] at h
  split at h
  · split at h
    · simp at h
    · exact getOrStartSpawn_error_cases _ _ _ _ h
  · exact getOrStartSpawn_error_cases _ _ _ _ h

theorem getOrStartInstance_error_cases (cm : ConnectorManager) (name : String)
    (w : SpawnWorld) (e : String) (cm1 : ConnectorManager)
    (h : getOrStartInstance cm name w = (Except.error e, cm1)) :
    e = "connector definition for \x27" ++ name ++ "\x27 not found" ∨
    (∃ p, e = "connector executable not found at " ++ p ++ " or " ++ p ++ ".exe") ∨
    (∃ se, e = "failed to start connector \x27" ++ name ++ "\x27: " ++ se) := by
  have h1 : (getOrStartInstance cm name w).1 = Except.error e := by rw [h]
  simp only [getOrStartInstance] at h1
  split at h1
  · simp at h1
  · exact getOrStartLockedPhase_error_cases _ _ _ _ h1

theorem getOrStartInstance_error_ne_empty (cm : ConnectorManager) (name : String)
    (w : SpawnWorld) (e : String) (cm1 : ConnectorManager)
    (h : getOrStartInstance cm name w = (Except.error e, cm1)) : e ≠ "" := by
  rcases getOrStartInstance_error_cases cm name w e cm1 h with h1 | ⟨p, h1⟩ | ⟨se, h1⟩ <;>
    subst h1
  · apply String.append_ne_empty_of_left
    apply String.append_length_pos
    decide
  · apply String.append_ne_empty_of_left
    apply String.append_length_pos
    apply String.append_length_pos
    apply String.append_length_pos
    decide
  · apply String.append_ne_empty_of_left
    apply String.append_length_pos
    apply String.append_length_pos
    decide

/-- C1 counterexample: an `Invoke` that fails in definition resolution
(empty definition store) does return a failure response paired with a
non-nil error, but its `messageContextOut` is the zero-value
`MessageContext`, not the `messageContextIn` that was passed in. -/
theorem invoke_failure_context_not_echoed :
    (Invoke (NewConnectorManager [] "../connectors") "SimpleFileConnector" "create"
        none none ⟨"m-1", none, none, none⟩
        ⟨⟨true, true, none⟩, none, none, Except.error "unused"⟩).2.1 ≠ none ∧
    (Invoke (NewConnectorManager [] "../connectors") "SimpleFileConnector" "create"
        none none ⟨"m-1", none, none, none⟩
        ⟨⟨true, true, none⟩, none, none, Except.error "unused"⟩).1.messageContextOut ≠
      (⟨"m-1", none, none, none⟩ : MessageContext) := by
  constructor
  · intro h
    exact Option.noConfusion (h.symm.trans rfl)
  · intro h
    have h2 := congrArg MessageContext.messageID h
    exact absurd h2 (by decide)

/-- C1 amended: for every `Invoke` call that fails in definition
resolution, process start, connect, encode, or decode, the returned
`OperationResponse` has `success = false`, a non-empty `errorMessage`
describing the cause, and a `messageContextOut` equal to the zero-value
`MessageContext` (not to the `messageContextIn` passed in), and the
response is paired with a non-nil error value. -/
theorem invoke_failure_synthetic_response (cm : ConnectorManager)
    (name op : String) (ov params : Option (List (String × Jval)))
    (ctx : MessageContext) (w : InvokeWorld)
    (h : (Invoke cm name op ov params ctx w).2.1 ≠ none) :
    (Invoke cm name op ov params ctx w).1.success = false ∧
    (Invoke cm name op ov params ctx w).1.messageContextOut = MessageContext.zero ∧
    (Invoke cm name op ov params ctx w).1.errorMessage ≠ "" := by
  rcases hg : getOrStartInstance cm name w.spawn with ⟨res, cm1⟩
  cases res with
  | error e =>
    have hne := getOrStartInstance_error_ne_empty cm name w.spawn e cm1 hg
    refine ⟨?_, ?_, ?_⟩ <;> simp [Invoke, hg]
    exact hne
  | ok inst =>
    cases hd : w.dialErr with
    | some derr =>
      refine ⟨?_, ?_, ?_⟩ <;> simp [Invoke, hg, hd]
      apply String.append_ne_empty_of_left
      apply String.append_length_pos
      apply String.append_length_pos
      decide
    | none =>
      cases he : w.encodeErr with
      | some eerr =>
        refine ⟨?_, ?_, ?_⟩ <;> simp [Invoke, hg, hd, he]
        apply String.append_ne_empty_of_left
        apply String.append_length_pos
        apply String.append_length_pos
        decide
      | none =>
        cases hr : w.decodeResult with
        | error derr2 =>
          refine ⟨?_, ?_, ?_⟩ <;> simp [Invoke, hg, hd, he, hr]
          apply String.append_ne_empty_of_left
          apply String.append_length_pos
          apply String.append_length_pos
          decide
        | ok resp2 =>
          exfalso
          apply h
          simp [Invoke, hg, hd, he, hr]

theorem invoke_failure_synthetic_response_witness :
    (Invoke (NewConnectorManager [] "../connectors") "SimpleFileConnector" "create"
        none none ⟨"m-1", none, none, none⟩
        ⟨⟨true, true, none⟩, none, none, Except.error "unused"⟩).1.success = false ∧
    (Invoke (NewConnectorManager [] "../connectors") "SimpleFileConnector" "create"
        none none ⟨"m-1", none, none, none⟩
        ⟨⟨true, true, none⟩, none, none, Except.error "unused"⟩).1.messageContextOut =
      MessageContext.zero :=
  ⟨(invoke_failure_synthetic_response (NewConnectorManager [] "../connectors")
      "SimpleFileConnector" "create" none none ⟨"m-1", none, none, none⟩
      ⟨⟨true, true, none⟩, none, none, Except.error "unused"⟩
      (fun h => Option.noConfusion (h.symm.trans rfl))).1,
   (invoke_failure_synthetic_response (NewConnectorManager [] "../connectors")
      "SimpleFileConnector" "create" none none ⟨"m-1", none, none, none⟩
      ⟨⟨true, true, none⟩, none, none, Except.error "unused"⟩
      (fun h => Option.noConfusion (h.symm.trans rfl))).2.1⟩

/-- C2 (code bug): the definition table is NOT read-only after load.
`currentConnectorConfig := instance.Definition.DefaultConfig` aliases
the map object stored in the definition table, and the override loop
writes into it, so an `Invoke` with a non-nil config override on a
definition with a non-nil `defaultConfig` mutates the stored
`defaultConfig`: here `{baseDirectory: /a}` becomes
`{baseDirectory: /b}` in the table after the call. -/
theorem invoke_override_mutates_definition_table :
    ((Invoke
        ⟨[("F", ⟨"F", "f/f", 9091, some [("baseDirectory", Jval.str "/a")]⟩)],
         [("F", ⟨⟨"F", "f/f", 9091, some [("baseDirectory", Jval.str "/a")]⟩,
            some ⟨true, none⟩, 9091⟩)],
         "../connectors"⟩
        "F" "create" (some [("baseDirectory", Jval.str "/b")]) none
        ⟨"m1", none, none, none⟩
        ⟨⟨true, false, none⟩, none, none,
         Except.ok ⟨true, ⟨"m1", none, none, none⟩, ""⟩⟩).2.2).connectorDefinitions =
      [("F", ⟨"F", "f/f", 9091, some [("baseDirectory", Jval.str "/b")]⟩)] := rfl

/-! ### Double-checked locking: two concurrent callers of
`getOrStartInstance`

The two lock-protected phases of `getOrStartInstance` are atomic with
respect to each other (the fast path runs under the read lock, the
whole re-check-and-spawn section under the exclusive write lock), so a
race between two callers is an interleaving of at most four atomic
steps. A caller whose fast path already returned an instance skips its
locked phase. -/

/-- Shared state of the race: the manager, each caller's result when
finished, and how many processes have been spawned. -/
structure RaceState where
  cm : ConnectorManager
  doneA : Option (Except String RunningConnectorInstance)
  doneB : Option (Except String RunningConnectorInstance)
  spawns : Nat

/-- The four atomic steps: caller A's read-locked fast path, caller A's
write-locked phase, and the same for caller B. -/
inductive RaceLabel where
  | a1
  | a2
  | b1
  | b2

def raceStep (w : SpawnWorld) (name : String) (st : RaceState) : RaceLabel → RaceState
  | RaceLabel.a1 =>
      if st.doneA.isSome then st
      else
        match getOrStartFastPath st.cm name with
        | some inst => { st with doneA := some (Except.ok inst) }
        | none => st
  | RaceLabel.a2 =>
      if st.doneA.isSome then st
      else
        let r := getOrStartLockedPhase st.cm name w
        { st with
          cm := r.2.1
          doneA := some r.1
          spawns := st.spawns + (if r.2.2 then 1 else 0) }
  | RaceLabel.b1 =>
      if st.doneB.isSome then st
      else
        match getOrStartFastPath st.cm name with
        | some inst => { st with doneB := some (Except.ok inst) }
        | none => st
  | RaceLabel.b2 =>
      if st.doneB.isSome then st
      else
        let r := getOrStartLockedPhase st.cm name w
        { st with
          cm := r.2.1
          doneB := some r.1
          spawns := st.spawns + (if r.2.2 then 1 else 0) }

def raceRun (w : SpawnWorld) (name : String) (labels : List RaceLabel) (st : RaceState) :
    RaceState :=
  labels.foldl (raceStep w name) st

/-- The six interleavings of the two callers' ordered step sequences
`[a1, a2]` and `[b1, b2]`. -/
def raceSchedules : List (List RaceLabel) :=
  [[RaceLabel.a1, RaceLabel.a2, RaceLabel.b1, RaceLabel.b2],
   [RaceLabel.a1, RaceLabel.b1, RaceLabel.a2, RaceLabel.b2],
   [RaceLabel.a1, RaceLabel.b1, RaceLabel.b2, RaceLabel.a2],
   [RaceLabel.b1, RaceLabel.a1, RaceLabel.a2, RaceLabel.b2],
   [RaceLabel.b1, RaceLabel.a1, RaceLabel.b2, RaceLabel.a2],
   [RaceLabel.b1, RaceLabel.b2, RaceLabel.a1, RaceLabel.a2]]

/-- The instance recorded by a successful spawn in
`getOrStartInstance`. -/
def spawnedInstance (d : ConnectorDefinition) : RunningConnectorInstance :=
  { definition := d
    cmd := some { hasProcess := true, processState := none }
    port := d.defaultPort }

theorem getOrStartFastPath_none (cm : ConnectorManager) (name : String)
    (h : mapLookup cm.runningInstances name = none) :
    getOrStartFastPath cm name = none := by
  simp [getOrStartFastPath, h]

theorem lockedPhase_spawns (cm : ConnectorManager) (name : String) (w : SpawnWorld)
    (d : ConnectorDefinition)
    (hnone : mapLookup cm.runningInstances name = none)
    (hdef : mapLookup cm.connectorDefinitions name = some d)
    (hexe : w.exeExists = true) (hstart : w.startErr = none) :
    getOrStartLockedPhase cm name w =
      (Except.ok (spawnedInstance d),
       { cm with
         runningInstances := mapInsert cm.runningInstances name (spawnedInstance d) },
       true) := by
  simp [getOrStartLockedPhase, hnone, getOrStartLockedPhase.getOrStartSpawn, hdef, hexe,
    hstart, spawnedInstance]

theorem fastPath_after_spawn (cm : ConnectorManager) (name : String)
    (d : ConnectorDefinition) :
    getOrStartFastPath
        { cm with
          runningInstances := mapInsert cm.runningInstances name (spawnedInstance d) }
        name = some (spawnedInstance d) := by
  simp [getOrStartFastPath, mapLookup_mapInsert_self, spawnedInstance, instCmdDeadOrNil]

theorem lockedPhase_after_spawn (cm : ConnectorManager) (name : String) (w : SpawnWorld)
    (d : ConnectorDefinition) :
    getOrStartLockedPhase
        { cm with
          runningInstances := mapInsert cm.runningInstances name (spawnedInstance d) }
        name w =
      (Except.ok (spawnedInstance d),
       { cm with
         runningInstances := mapInsert cm.runningInstances name (spawnedInstance d) },
       false) := by
  simp [getOrStartLockedPhase, mapLookup_mapInsert_self, spawnedInstance, instHealthyLocked]

/-- C10: when two concurrent callers run `getOrStartInstance` for the
same connector name while no instance is tracked for it (and the
definition resolves, the executable exists, and the start succeeds),
then under every interleaving of their read-locked and write-locked
atomic phases exactly one worker process is spawned, and both callers
return the instance recorded by the spawning caller — the second
caller's re-check under the exclusive lock observes it instead of
spawning a duplicate. -/
theorem concurrent_getOrStart_single_spawn (cm : ConnectorManager) (name : String)
    (w : SpawnWorld) (d : ConnectorDefinition) (sched : List RaceLabel)
    (hnone : mapLookup cm.runningInstances name = none)
    (hdef : mapLookup cm.connectorDefinitions name = some d)
    (hexe : w.exeExists = true) (hstart : w.startErr = none)
    (hs : sched ∈ raceSchedules) :
    (raceRun w name sched ⟨cm, none, none, 0⟩).spawns = 1 ∧
    (raceRun w name sched ⟨cm, none, none, 0⟩).doneA =
      some (Except.ok (spawnedInstance d)) ∧
    (raceRun w name sched ⟨cm, none, none, 0⟩).doneB =
      some (Except.ok (spawnedInstance d)) := by
  have hf0 := getOrStartFastPath_none cm name hnone
  have hl0 := lockedPhase_spawns cm name w d hnone hdef hexe hstart
  have hf1 := fastPath_after_spawn cm name d
  have hl1 := lockedPhase_after_spawn cm name w d
  simp only [raceSchedules, List.mem_cons, List.not_mem_nil, or_false] at hs
  rcases hs with rfl | rfl | rfl | rfl | rfl | rfl <;>
    refine ⟨?_, ?_, ?_⟩ <;>
      simp [raceRun, raceStep, hf0, hl0, hf1, hl1]

theorem concurrent_getOrStart_single_spawn_witness :
    (raceRun ⟨true, false, none⟩ "F"
        [RaceLabel.a1, RaceLabel.b1, RaceLabel.a2, RaceLabel.b2]
        ⟨⟨[("F", ⟨"F", "f/f", 9091, none⟩)], [], "../connectors"⟩, none, none, 0⟩).spawns =
      1 :=
  (concurrent_getOrStart_single_spawn
    ⟨[("F", ⟨"F", "f/f", 9091, none⟩)], [], "../connectors"⟩ "F"
    ⟨true, false, none⟩ ⟨"F", "f/f", 9091, none⟩
    [RaceLabel.a1, RaceLabel.b1, RaceLabel.a2, RaceLabel.b2]
    rfl rfl rfl rfl (by simp [raceSchedules])).1
